import Mathlib

/-!
Shallow embedding of the STSH repository (src/main.py and src/getPlaylists.py).

Conventions of the embedding:
* Python strings are Lean `String`s; `str.lower()` is `String.toLower`,
  `str.strip()` is `pyStrip` (drop whitespace from both ends), the substring
  test `a in b` is decidable `List.IsInfix` on the character lists.
* The filesystem is explicit: a directory of MP3 files is a `List MP3File`
  (filename and modification time), a possibly absent directory is an
  `Option (List String)` of its MP3 filenames, and the CSV-side filesystem is
  a map from filename to file content plus a set of directories.
* Remote calls are oracles passed in as arguments: the paginated Spotify API
  is a function from offset to a page, the yt-dlp download call is an
  `Except` value (exception message, or the directory listing after the call).
* Modification times are natural numbers; only their order matters.
-/

namespace STSH

/-- Python's `str.strip()` on a character list: drop whitespace from the
front, then from the back. -/
def pyStrip (s : List Char) : List Char :=
  ((s.dropWhile Char.isWhitespace).reverse.dropWhile Char.isWhitespace).reverse

/-- `str.strip()` on strings. -/
def stripStr (s : String) : String :=
  String.mk (pyStrip s.data)

/-- Python's substring test `needle in hay`, as a Bool. -/
def strIn (needle hay : String) : Bool :=
  decide (needle.data <:+: hay.data)

/-- Python's `str.lower()`, per character (ASCII case mapping). -/
def pyLower (s : String) : String :=
  String.mk (s.data.map Char.toLower)

/-! ## src/main.py -/

/-- `check_if_exists(track_name, artist_name, output_dir)` from src/main.py.
The directory is `none` when `os.path.exists(output_dir)` is false, otherwise
`some files` where `files` are the basenames of the `*.mp3` glob matches.
Returns true iff some MP3 filename, lowercased, contains both the lowercased
track name and the lowercased artist name. -/
def check_if_exists (track_name artist_name : String)
    (output_dir : Option (List String)) : Bool :=
  match output_dir with
  | none => false
  | some existing_files =>
    let track_lower := pyLower track_name
    let artist_lower := pyLower artist_name
    existing_files.any fun file_path =>
      let filename := pyLower file_path
      strIn track_lower filename && strIn artist_lower filename

/-- An MP3 file of the output directory: its filename and its modification
time (`os.path.getmtime`). -/
structure MP3File where
  path : String
  mtime : Nat
deriving DecidableEq, Repr

/-- The loop body of `find_newest_mp3`: keep the running newest file and its
time, replacing them when a file's mtime is strictly greater. -/
def newest_step (acc : Option MP3File × Nat) (f : MP3File) : Option MP3File × Nat :=
  if f.mtime > acc.2 then (some f, f.mtime) else acc

/-- `find_newest_mp3(output_dir, before_time)` from src/main.py: scan the
directory's MP3 files, tracking the file with the greatest mtime seen so far
(starting the threshold at `before_time`); return it only when its mtime is
strictly greater than `before_time`, else `None`. -/
def find_newest_mp3 (mp3_files : List MP3File) (before_time : Nat) : Option MP3File :=
  let r := mp3_files.foldl newest_step (none, before_time)
  if r.2 > before_time then r.1 else none

/-- The ID3 tags `tag_mp3` writes (the pure part of `tag_mp3` from
src/main.py; the mutagen file I/O is outside the embedding). -/
structure Tags where
  title : String
  artist : String
  album : Option String
  year : Option String
deriving DecidableEq, Repr

/-- Python's `release_date.split('-')[0]`: the characters before the first
hyphen. -/
def splitHeadHyphen (s : String) : String :=
  String.mk (s.data.takeWhile fun c => c != '-')

/-- The tag computation of `tag_mp3(file_path, track_name, artist_name,
album_name, release_date, ...)` from src/main.py: title and artist always;
album only when `album_name` is truthy (non-empty); year only when
`release_date` is truthy and its leading segment before the first hyphen is
truthy (non-empty) and all digits (`year.isdigit()`). -/
def tag_mp3 (track_name artist_name album_name release_date : String) : Tags :=
  { title := track_name
    artist := artist_name
    album := if album_name = "" then none else some album_name
    year :=
      if release_date = "" then none
      else
        let year := splitHeadHyphen release_date
        if year != "" && year.data.all Char.isDigit then some year else none }

/-- One CSV row of the downloader's input, as `row.get(column, '')` reads it
(a missing column is the empty string). -/
structure CsvTrackRow where
  track_name : String
  artist_name : String
  album_name : String
  album_image_url : String
  album_release_date : String
  release_date_fallback : String
deriving DecidableEq, Repr

/-- The oracle for one row's yt-dlp call: the time captured just before the
call, and its result — `error msg` when the call raises, or `ok files`, the
output directory's MP3 listing right after the call returns. On an exception
the model keeps the directory listing unchanged. -/
structure DownloadEnv where
  before_time : Nat
  result : Except String (List MP3File)

/-- The per-track outcome states of the fetch-and-tag pipeline. -/
inductive Outcome where
  | skippedMissing
  | alreadyExists
  | downloadedTagged
  | taggingSkipped
  | downloadFailed
deriving DecidableEq, Repr

/-- The body of the row loop of `download_songs_from_csv` from src/main.py:
strip the names; skip when either is empty; skip when `check_if_exists`;
otherwise attempt the download and classify by the exception and by
`find_newest_mp3`. Returns the outcome, the logged message, and the output
directory listing afterwards. -/
def process_row (i : Nat) (row : CsvTrackRow) (dir_files : List MP3File)
    (env : DownloadEnv) : Outcome × String × List MP3File :=
  let track_name := stripStr row.track_name
  let artist_name := stripStr row.artist_name
  if track_name = "" || artist_name = "" then
    (.skippedMissing, s!"Skipping row {i}: Missing track or artist name", dir_files)
  else if check_if_exists track_name artist_name (some (dir_files.map MP3File.path)) then
    (.alreadyExists, s!"[{i}] Already exists: {track_name} - {artist_name}", dir_files)
  else
    match env.result with
    | .error e =>
      (.downloadFailed, s!"✗ Error downloading {track_name} - {artist_name}: {e}",
        dir_files)
    | .ok new_files =>
      match find_newest_mp3 new_files env.before_time with
      | some _ =>
        (.downloadedTagged, s!"✓ Downloaded and tagged: {track_name} - {artist_name}",
          new_files)
      | none =>
        (.taggingSkipped, s!"✓ Downloaded: {track_name} - {artist_name} (tagging skipped)",
          new_files)

/-- `download_songs_from_csv` from src/main.py: fold `process_row` over the
CSV rows (numbered from `i`), threading the output directory listing, and
collect each row's outcome and logged message. -/
def download_songs_from_csv :
    Nat → List (CsvTrackRow × DownloadEnv) → List MP3File → List (Outcome × String)
  | _, [], _ => []
  | i, (row, env) :: rest, dir_files =>
    let r := process_row i row dir_files env
    (r.1, r.2.1) :: download_songs_from_csv (i + 1) rest r.2.2

/-! ## src/getPlaylists.py -/

/-- A page the Spotify client returns: `results['items']` and the truthiness
of `results['next']`. -/
structure Page (α : Type u) where
  items : List α
  next : Bool

/-- One iteration's decision in a pagination loop. -/
inductive StepResult (α : Type u) where
  | done (acc : List α)
  | more (offset : Nat) (acc : List α)

/-- The body of the `while True:` pagination loops of src/getPlaylists.py:
an empty `items` breaks at once; otherwise the items are appended, the
offset advances by `limit`, and a falsy `next` breaks. -/
def pageStep (limit offset : Nat) (acc : List α) (results : Page α) : StepResult α :=
  if results.items.isEmpty then .done acc
  else
    let acc2 := acc ++ results.items
    if !results.next then .done acc2
    else .more (offset + limit) acc2

/-- The pagination loop, fuelled: `f` is the provider (offset ↦ page). When
the fuel runs out the accumulated items are returned (the real loop would
keep iterating; every claim below is about single iterations, so the fuel is
harmless). -/
def paginate (f : Nat → Page α) (limit : Nat) : Nat → Nat → List α → List α
  | 0, _, acc => acc
  | fuel + 1, offset, acc =>
    match pageStep limit offset acc (f offset) with
    | .done acc2 => acc2
    | .more offset2 acc2 => paginate f limit fuel offset2 acc2

/-- `get_all_saved_tracks` from src/getPlaylists.py: paginate
`current_user_saved_tracks` with limit 50 from offset 0. -/
def get_all_saved_tracks (f : Nat → Page α) (fuel : Nat) : List α :=
  paginate f 50 fuel 0 []

/-- `get_all_playlists` from src/getPlaylists.py: paginate
`current_user_playlists` with limit 50 from offset 0. -/
def get_all_playlists (f : Nat → Page α) (fuel : Nat) : List α :=
  paginate f 50 fuel 0 []

/-- `get_playlist_tracks` from src/getPlaylists.py: paginate
`playlist_tracks` with limit 100 from offset 0. -/
def get_playlist_tracks (f : Nat → Page α) (fuel : Nat) : List α :=
  paginate f 100 fuel 0 []

/-- An artist object (`artist['name']`, `artist['uri']` are indexed
directly, no default). -/
structure Artist where
  name : String
  uri : String
deriving DecidableEq, Repr

/-- An album object; each `album.get(key, default)` field is an `Option`. -/
structure Album where
  uri : Option String
  name : Option String
  artists : Option (List Artist)
  release_date : Option String
  images : Option (List String)
deriving DecidableEq, Repr

/-- A track object; `track.get(key, default)` fields are `Option`s and
`track.get('album', {})` is an `Option Album`. -/
structure SpTrack where
  uri : Option String
  name : Option String
  artists : Option (List Artist)
  album : Option Album
  disc_number : Option Nat
  track_number : Option Nat
  duration_ms : Option Nat
  preview_url : Option String
  explicit : Option Bool
  popularity : Option Nat
  isrc : Option String
deriving DecidableEq, Repr

/-- A playlist item: `item['track']` (which the API can return as null), and
`item.get('added_by', {}).get('id', '')` / `item.get('added_at', '')`. -/
structure PlaylistItem where
  track : Option SpTrack
  added_by_id : Option String
  added_at : Option String
deriving DecidableEq, Repr

/-- A CSV cell: string, int or bool values as `csv.DictWriter` receives
them; an absent int is the empty string. -/
inductive CsvValue where
  | str (s : String)
  | nat (n : Nat)
  | bool (b : Bool)
deriving DecidableEq, Repr

/-- An int-or-empty-string cell. -/
def optNatCell : Option Nat → CsvValue
  | none => .str ""
  | some n => .nat n

/-- The flattened record `track_to_csv_row` builds. -/
structure CsvRow where
  track_uri : String
  track_name : String
  artist_uris : String
  artist_names : String
  album_uri : String
  album_name : String
  album_artist_uris : String
  album_artist_names : String
  album_release_date : String
  album_image_url : String
  disc_number : Option Nat
  track_number : Option Nat
  duration_ms : Option Nat
  preview_url : String
  explicit : Bool
  popularity : Option Nat
  isrc : String
  added_by : String
  added_at : String
  playlist_name : String
deriving DecidableEq, Repr

/-- `track_to_csv_row(item, playlist_name)` from src/getPlaylists.py:
`None` when the item's track object is falsy, otherwise the flattened row,
with every missing nested field defaulting to the empty string / empty
list as the `.get` defaults do. -/
def track_to_csv_row (item : PlaylistItem) (playlist_name : String) : Option CsvRow :=
  match item.track with
  | none => none
  | some track =>
    let artists := String.intercalate ", " ((track.artists.getD []).map Artist.name)
    some
      { track_uri := track.uri.getD ""
        track_name := track.name.getD ""
        artist_uris := String.intercalate ", " ((track.artists.getD []).map Artist.uri)
        artist_names := artists
        album_uri := match track.album with | none => "" | some a => a.uri.getD ""
        album_name := match track.album with | none => "" | some a => a.name.getD ""
        album_artist_uris :=
          match track.album with
          | none => String.intercalate ", " ([].map Artist.uri)
          | some a => String.intercalate ", " ((a.artists.getD []).map Artist.uri)
        album_artist_names :=
          match track.album with
          | none => String.intercalate ", " ([].map Artist.name)
          | some a => String.intercalate ", " ((a.artists.getD []).map Artist.name)
        album_release_date :=
          match track.album with | none => "" | some a => a.release_date.getD ""
        album_image_url :=
          match track.album with
          | none => ""
          | some a => match a.images.getD [] with | [] => "" | u :: _ => u
        disc_number := track.disc_number
        track_number := track.track_number
        duration_ms := track.duration_ms
        preview_url := track.preview_url.getD ""
        explicit := track.explicit.getD false
        popularity := track.popularity
        isrc := track.isrc.getD ""
        added_by := item.added_by_id.getD ""
        added_at := item.added_at.getD ""
        playlist_name := playlist_name }

/-- The list comprehensions of `main` in src/getPlaylists.py:
`[track_to_csv_row(item, name) for item in tracks]` followed by
`[row for row in csv_rows if row]` (a row dict is truthy, `None` is not). -/
def map_rows (items : List PlaylistItem) (playlist_name : String) : List CsvRow :=
  (items.map fun item => track_to_csv_row item playlist_name).filterMap id

/-- The CSV header: the `fieldnames` list of `export_to_csv`. -/
def fieldnames : List CsvValue :=
  [.str "Track URI", .str "Track Name", .str "Artist URI(s)", .str "Artist Name(s)",
   .str "Album URI", .str "Album Name", .str "Album Artist URI(s)",
   .str "Album Artist Name(s)", .str "Album Release Date", .str "Album Image URL",
   .str "Disc Number", .str "Track Number", .str "Track Duration (ms)",
   .str "Track Preview URL", .str "Explicit", .str "Popularity", .str "ISRC",
   .str "Added By", .str "Added At", .str "Playlist Name"]

/-- A row's cells in `fieldnames` order, as `csv.DictWriter.writerows`
writes them. -/
def rowValues (r : CsvRow) : List CsvValue :=
  [.str r.track_uri, .str r.track_name, .str r.artist_uris, .str r.artist_names,
   .str r.album_uri, .str r.album_name, .str r.album_artist_uris,
   .str r.album_artist_names, .str r.album_release_date, .str r.album_image_url,
   optNatCell r.disc_number, optNatCell r.track_number, optNatCell r.duration_ms,
   .str r.preview_url, .bool r.explicit, optNatCell r.popularity, .str r.isrc,
   .str r.added_by, .str r.added_at, .str r.playlist_name]

/-- The exporter-side filesystem: the set of directories and a map from
filename to CSV content (a list of records, the header included). -/
structure FS where
  dirs : List String
  files : String → Option (List (List CsvValue))

/-- `os.makedirs(d, exist_ok=True)`. -/
def FS.mkdir (fs : FS) (d : String) : FS :=
  { fs with dirs := if d ∈ fs.dirs then fs.dirs else d :: fs.dirs }

/-- `export_to_csv(tracks, filename)` from src/getPlaylists.py: an empty
track list only prints a message and returns without touching the
filesystem; otherwise the file is (re)written with the header row followed
by one record per track. -/
def export_to_csv (tracks : List CsvRow) (filename : String) (fs : FS) : FS :=
  if tracks.isEmpty then fs
  else
    { fs with
      files := fun fn =>
        if fn = filename then some (fieldnames :: tracks.map rowValues)
        else fs.files fn }

/-- The filename sanitization of `main` in src/getPlaylists.py:
`"".join(c for c in name if c.isalnum() or c in (' ', '-', '_')).strip()`. -/
def sanitize_name (name : String) : String :=
  stripStr (String.mk (name.data.filter fun c => c.isAlphanum || c == ' ' || c == '-' || c == '_'))

/-- The export phase of `main` from src/getPlaylists.py, with the remote
data passed in as oracles: make the `playlists` directory, export the liked
tracks, then export each playlist under its sanitized name. -/
def export_main (saved : List PlaylistItem)
    (playlists : List (String × List PlaylistItem)) (fs : FS) : FS :=
  let fs1 := FS.mkdir fs "playlists"
  let fs2 := export_to_csv (map_rows saved "Liked Songs") "playlists/Liked_Songs.csv" fs1
  playlists.foldl
    (fun acc pl =>
      export_to_csv (map_rows pl.2 pl.1)
        ("playlists/" ++ sanitize_name pl.1 ++ ".csv") acc)
    fs2

/-- A concrete filesystem fixture: a stale `playlists/Old.csv` left over
from an earlier run. -/
def fsStale : FS :=
  { dirs := []
    files := fun fn =>
      if fn = "playlists/Old.csv" then some [[.str "stale"]] else none }

/-! ## Helper lemmas -/

theorem strIn_eq_true_iff (needle hay : String) :
    strIn needle hay = true ↔ needle.data <:+: hay.data := by
  simp [strIn]

theorem check_some_iff (t a : String) (files : List String) :
    check_if_exists t a (some files) = true ↔
      ∃ fn ∈ files, (pyLower t).data <:+: (pyLower fn).data ∧
        (pyLower a).data <:+: (pyLower fn).data := by
  simp [check_if_exists, strIn, List.any_eq_true]

theorem newest_foldl_spec (l : List MP3File) :
    ∀ (o : Option MP3File) (t : Nat),
      t ≤ (l.foldl newest_step (o, t)).2 ∧
      (∀ g ∈ l, g.mtime ≤ (l.foldl newest_step (o, t)).2) ∧
      ((l.foldl newest_step (o, t)).2 = t ∧ (l.foldl newest_step (o, t)).1 = o ∨
        ∃ f ∈ l, (l.foldl newest_step (o, t)).1 = some f ∧
          (l.foldl newest_step (o, t)).2 = f.mtime) := by
  induction l with
  | nil => intro o t; exact ⟨le_refl t, by simp, Or.inl ⟨rfl, rfl⟩⟩
  | cons a l ih =>
    intro o t
    rw [List.foldl_cons]
    by_cases h : a.mtime > t
    · have hstep : newest_step (o, t) a = (some a, a.mtime) := by
        simp [newest_step, h]
      rw [hstep]
      obtain ⟨h1, h2, h3⟩ := ih (some a) a.mtime
      refine ⟨le_trans (le_of_lt h) h1, ?_, ?_⟩
      · intro g hg
        rcases List.mem_cons.mp hg with hg | hg
        · subst hg; exact h1
        · exact h2 g hg
      · rcases h3 with ⟨ha, hb⟩ | ⟨f, hf, ha, hb⟩
        · exact Or.inr ⟨a, List.mem_cons_self a l, hb, ha⟩
        · exact Or.inr ⟨f, List.mem_cons_of_mem a hf, ha, hb⟩
    · have hstep : newest_step (o, t) a = (o, t) := by
        simp [newest_step, h]
      rw [hstep]
      obtain ⟨h1, h2, h3⟩ := ih o t
      refine ⟨h1, ?_, ?_⟩
      · intro g hg
        rcases List.mem_cons.mp hg with hg | hg
        · subst hg; exact le_trans (Nat.le_of_not_lt h) h1
        · exact h2 g hg
      · rcases h3 with ⟨ha, hb⟩ | ⟨f, hf, ha, hb⟩
        · exact Or.inl ⟨ha, hb⟩
        · exact Or.inr ⟨f, List.mem_cons_of_mem a hf, ha, hb⟩

theorem find_newest_some_spec (files : List MP3File) (bt : Nat) (f : MP3File)
    (h : find_newest_mp3 files bt = some f) :
    f ∈ files ∧ bt < f.mtime ∧ ∀ g ∈ files, g.mtime ≤ f.mtime := by
  obtain ⟨h1, h2, h3⟩ := newest_foldl_spec files (none : Option MP3File) bt
  unfold find_newest_mp3 at h
  by_cases hgt : (files.foldl newest_step (none, bt)).2 > bt
  · rw [if_pos hgt] at h
    rcases h3 with ⟨ha, hb⟩ | ⟨g, hg, ha, hb⟩
    · rw [hb] at h; exact absurd h (by simp)
    · rw [ha] at h
      cases h
      exact ⟨hg, hb ▸ hgt, fun g' hg' => hb ▸ h2 g' hg'⟩
  · rw [if_neg hgt] at h
    exact absurd h (by simp)

theorem find_newest_none_of_le (files : List MP3File) (bt : Nat)
    (h : ∀ f ∈ files, f.mtime ≤ bt) : find_newest_mp3 files bt = none := by
  obtain ⟨h1, h2, h3⟩ := newest_foldl_spec files (none : Option MP3File) bt
  unfold find_newest_mp3
  have hle : (files.foldl newest_step (none, bt)).2 ≤ bt := by
    rcases h3 with ⟨ha, _⟩ | ⟨g, hg, _, hb⟩
    · exact le_of_eq ha
    · exact hb ▸ h g hg
  rw [if_neg (Nat.not_lt.mpr hle)]

/-! ## Claim theorems -/

/-- C1: the existence check is true iff the directory holds at least one MP3
file whose lowercased filename contains both the lowercased track name and
the lowercased artist name as substrings, and a non-existent output
directory yields false for every candidate; the spec's three examples on
`"Bohemian Rhapsody - Queen.mp3"` behave as stated. -/
theorem check_if_exists_correct :
    (∀ (t a : String) (files : List String),
        check_if_exists t a (some files) = true ↔
          ∃ fn ∈ files, (pyLower t).data <:+: (pyLower fn).data ∧
            (pyLower a).data <:+: (pyLower fn).data) ∧
    (∀ t a : String, check_if_exists t a none = false) ∧
    check_if_exists "Bohemian Rhapsody" "Queen"
      (some ["Bohemian Rhapsody - Queen.mp3"]) = true ∧
    check_if_exists "Rhapsody" "Panic"
      (some ["Bohemian Rhapsody - Queen.mp3"]) = false ∧
    check_if_exists "Bohemian" "Queen"
      (some ["Bohemian Rhapsody - Queen.mp3"]) = true := by
  refine ⟨check_some_iff, fun t a => rfl, by decide, by decide, by decide⟩

/-- C10: in any existing output directory with at least one MP3 file, the
candidate with empty track name and empty artist name is reported as already
existing (the empty string is a substring of every filename). -/
theorem check_if_exists_empty_names (files : List String) (h : files ≠ []) :
    check_if_exists "" "" (some files) = true := by
  match files, h with
  | f :: rest, _ =>
    rw [check_some_iff]
    have hnil : (pyLower "").data = [] := rfl
    exact ⟨f, List.mem_cons_self f rest, ⟨[], (pyLower f).data, by simp [hnil]⟩,
      ⟨[], (pyLower f).data, by simp [hnil]⟩⟩

/-- C10 witness: a concrete one-file directory. -/
theorem check_if_exists_empty_names_witness :
    check_if_exists "" "" (some ["x.mp3"]) = true :=
  check_if_exists_empty_names ["x.mp3"] (by simp)

/-- C7: `tag_mp3` writes a year tag equal to the release date's leading
segment before the first hyphen exactly when that segment is non-empty and
all digits, and no year tag otherwise; `"1991-11-05"` tags `"1991"`, while
`""` and `"unknown"` tag no year. -/
theorem tag_mp3_year_correct :
    (∀ (t a alb rd y : String),
        (tag_mp3 t a alb rd).year = some y ↔
          y = splitHeadHyphen rd ∧ y ≠ "" ∧ y.data.all Char.isDigit = true) ∧
    (∀ t a alb rd : String,
        (tag_mp3 t a alb rd).year = none ↔
          ¬(splitHeadHyphen rd ≠ "" ∧
            (splitHeadHyphen rd).data.all Char.isDigit = true)) ∧
    (tag_mp3 "t" "a" "al" "1991-11-05").year = some "1991" ∧
    (tag_mp3 "t" "a" "al" "").year = none ∧
    (tag_mp3 "t" "a" "al" "unknown").year = none := by
  have key : ∀ (t a alb rd : String),
      (tag_mp3 t a alb rd).year =
        if splitHeadHyphen rd ≠ "" ∧ (splitHeadHyphen rd).data.all Char.isDigit = true
        then some (splitHeadHyphen rd) else none := by
    intro t a alb rd
    by_cases hrd : rd = ""
    · subst hrd
      simp [tag_mp3, splitHeadHyphen]
    · simp only [tag_mp3, if_neg hrd]
      by_cases hseg : splitHeadHyphen rd = ""
      · simp [hseg]
      · by_cases hdig : (splitHeadHyphen rd).data.all Char.isDigit = true
        · simp [hseg, hdig, bne_iff_ne]
        · simp [hseg, hdig, bne_iff_ne]
  refine ⟨?_, ?_, by decide, by decide, by decide⟩
  · intro t a alb rd y
    rw [key]
    by_cases hc : splitHeadHyphen rd ≠ "" ∧ (splitHeadHyphen rd).data.all Char.isDigit = true
    · simp only [if_pos hc]
      constructor
      · rintro h
        cases h
        exact ⟨rfl, hc.1, hc.2⟩
      · rintro ⟨rfl, _, _⟩
        rfl
    · simp only [if_neg hc]
      constructor
      · intro h
        exact absurd h (by simp)
      · rintro ⟨rfl, h1, h2⟩
        exact absurd ⟨h1, h2⟩ hc
  · intro t a alb rd
    rw [key]
    by_cases hc : splitHeadHyphen rd ≠ "" ∧ (splitHeadHyphen rd).data.all Char.isDigit = true
    · simp [hc]
    · simp [hc]

/-- C3: `find_newest_mp3` identifies the MP3 file with the greatest
modification time provided it is strictly greater than the pre-download
timestamp; when no file's mtime is strictly greater it identifies nothing,
and the row's outcome is then the tagging-skipped state, logged as a
successful download without tags. -/
theorem find_newest_mp3_correct :
    (∀ (files : List MP3File) (bt : Nat) (f : MP3File),
        find_newest_mp3 files bt = some f →
          f ∈ files ∧ bt < f.mtime ∧ ∀ g ∈ files, g.mtime ≤ f.mtime) ∧
    (∀ (files : List MP3File) (bt : Nat),
        (∀ f ∈ files, f.mtime ≤ bt) → find_newest_mp3 files bt = none) ∧
    (∀ (files : List MP3File) (bt : Nat) (f : MP3File),
        f ∈ files → bt < f.mtime → (find_newest_mp3 files bt).isSome = true) ∧
    (∀ (i : Nat) (row : CsvTrackRow) (dir_files new_files : List MP3File)
        (env : DownloadEnv),
        env.result = .ok new_files →
        (∀ f ∈ new_files, f.mtime ≤ env.before_time) →
        stripStr row.track_name ≠ "" → stripStr row.artist_name ≠ "" →
        check_if_exists (stripStr row.track_name) (stripStr row.artist_name)
          (some (dir_files.map MP3File.path)) = false →
        process_row i row dir_files env =
          (.taggingSkipped,
            s!"✓ Downloaded: {stripStr row.track_name} - {stripStr row.artist_name} (tagging skipped)",
            new_files)) := by
  refine ⟨find_newest_some_spec, find_newest_none_of_le, ?_, ?_⟩
  · intro files bt f hf hgt
    obtain ⟨h1, h2, h3⟩ := newest_foldl_spec files (none : Option MP3File) bt
    have hr2 : bt < (files.foldl newest_step (none, bt)).2 :=
      lt_of_lt_of_le hgt (h2 f hf)
    unfold find_newest_mp3
    rw [if_pos hr2]
    rcases h3 with ⟨ha, _⟩ | ⟨g, _, ha, _⟩
    · exact absurd ha (Nat.ne_of_gt hr2)
    · rw [ha]; rfl
  intro i row dir_files new_files env hres hle h1 h2 hchk
  have hnone : find_newest_mp3 new_files env.before_time = none :=
    find_newest_none_of_le new_files env.before_time hle
  simp [process_row, h1, h2, hchk, hres, hnone]

/-- C8: a row whose search/download call raises an exception gets the
download-failed outcome with the error message logged; processing continues
with the remaining rows over an unchanged directory, and every row yields
exactly one outcome. -/
theorem download_failed_correct :
    (∀ (i : Nat) (row : CsvTrackRow) (env : DownloadEnv)
        (rest : List (CsvTrackRow × DownloadEnv)) (dir_files : List MP3File)
        (e : String),
        env.result = .error e →
        stripStr row.track_name ≠ "" → stripStr row.artist_name ≠ "" →
        check_if_exists (stripStr row.track_name) (stripStr row.artist_name)
          (some (dir_files.map MP3File.path)) = false →
        download_songs_from_csv i ((row, env) :: rest) dir_files =
          (.downloadFailed,
              s!"✗ Error downloading {stripStr row.track_name} - {stripStr row.artist_name}: {e}")
            :: download_songs_from_csv (i + 1) rest dir_files) ∧
    (∀ (i : Nat) (rows : List (CsvTrackRow × DownloadEnv))
        (dir_files : List MP3File),
        (download_songs_from_csv i rows dir_files).length = rows.length) := by
  constructor
  · intro i row env rest dir_files e hres h1 h2 hchk
    have hrow : process_row i row dir_files env =
        (.downloadFailed,
          s!"✗ Error downloading {stripStr row.track_name} - {stripStr row.artist_name}: {e}",
          dir_files) := by
      simp [process_row, h1, h2, hchk, hres]
    simp [download_songs_from_csv, hrow]
  · intro i rows
    induction rows generalizing i with
    | nil => intro dir_files; rfl
    | cons r rest ih =>
      intro dir_files
      simp [download_songs_from_csv, ih]

/-- C2: in every pagination loop (saved tracks and playlists at page size
50, playlist tracks at page size 100) an empty page terminates the loop at
once regardless of the next indicator, a non-empty final page (falsy next)
terminates after appending its items, and otherwise the loop continues with
the offset advanced by exactly the page size; the three listing functions
are this loop at their respective page sizes from offset 0. -/
theorem pagination_correct :
    (∀ (α : Type) (f : Nat → Page α) (limit fuel offset : Nat) (acc : List α),
        ((f offset).items = [] → paginate f limit (fuel + 1) offset acc = acc) ∧
        ((f offset).items ≠ [] → (f offset).next = false →
          paginate f limit (fuel + 1) offset acc = acc ++ (f offset).items) ∧
        ((f offset).items ≠ [] → (f offset).next = true →
          paginate f limit (fuel + 1) offset acc =
            paginate f limit fuel (offset + limit) (acc ++ (f offset).items))) ∧
    (∀ (α : Type) (f : Nat → Page α) (fuel : Nat),
        get_all_saved_tracks f fuel = paginate f 50 fuel 0 [] ∧
        get_all_playlists f fuel = paginate f 50 fuel 0 [] ∧
        get_playlist_tracks f fuel = paginate f 100 fuel 0 []) := by
  constructor
  · intro α f limit fuel offset acc
    refine ⟨?_, ?_, ?_⟩
    · intro hempty
      simp [paginate, pageStep, hempty]
    · intro hne hnext
      have hemp : (f offset).items.isEmpty = false := by
        simpa [List.isEmpty_iff] using hne
      simp [paginate, pageStep, hemp, hnext]
    · intro hne hnext
      have hemp : (f offset).items.isEmpty = false := by
        simpa [List.isEmpty_iff] using hne
      simp [paginate, pageStep, hemp, hnext]
  · intro α f fuel
    exact ⟨rfl, rfl, rfl⟩

/-- C9 counterexample: a non-empty page whose next indicator is falsy stops
the loop, so "stops iff the page is empty" fails: on the page
`{items := [7], next := false}` the step is `done` although the item
sequence is non-empty. -/
theorem pageStep_stops_on_nonempty_page :
    pageStep 100 0 ([] : List Nat) { items := [7], next := false } =
      .done [7] ∧
    ({ items := [7], next := false } : Page Nat).items ≠ [] := by
  exact ⟨rfl, by simp⟩

/-- C9 amended: a pagination iteration stops exactly when its page's item
sequence is empty OR the provider's next indicator is falsy; an empty page
stops it regardless of the next indicator's value. -/
theorem pageStep_done_iff :
    ∀ (α : Type) (limit offset : Nat) (acc : List α) (p : Page α),
      ((∃ acc2, pageStep limit offset acc p = .done acc2) ↔
        p.items = [] ∨ p.next = false) ∧
      (p.items = [] → pageStep limit offset acc p = .done acc) := by
  intro α limit offset acc p
  obtain ⟨items, nxt⟩ := p
  constructor
  · cases items with
    | nil =>
      simp [pageStep]
    | cons x xs =>
      cases nxt with
      | false => simp [pageStep]
      | true =>
        simp only [pageStep, List.isEmpty_cons, if_false, Bool.not_true]
        constructor
        · rintro ⟨acc2, h⟩
          exact absurd h (by simp)
        · rintro (h | h) <;> simp at h
  · intro h
    subst h
    simp [pageStep]

theorem map_rows_append (xs ys : List PlaylistItem) (pn : String) :
    map_rows (xs ++ ys) pn = map_rows xs pn ++ map_rows ys pn := by
  simp [map_rows, List.map_append, List.filterMap_append]

/-- C4: an item whose underlying track object is absent produces no row and
is simply dropped from the export; removing such an item from anywhere in
the item list leaves the mapped rows of every other item unchanged, and the
mapping distributes over the list, so the remaining well-formed items are
still mapped and exported. -/
theorem track_to_csv_row_correct :
    (∀ (item : PlaylistItem) (pn : String),
        track_to_csv_row item pn = none ↔ item.track = none) ∧
    (∀ (pn : String) (xs ys : List PlaylistItem) (bad : PlaylistItem),
        bad.track = none →
        map_rows (xs ++ bad :: ys) pn = map_rows (xs ++ ys) pn) ∧
    (∀ (xs ys : List PlaylistItem) (pn : String),
        map_rows (xs ++ ys) pn = map_rows xs pn ++ map_rows ys pn) := by
  have hone : ∀ (item : PlaylistItem) (pn : String),
      track_to_csv_row item pn = none ↔ item.track = none := by
    intro item pn
    cases h : item.track with
    | none => simp [track_to_csv_row, h]
    | some tr => simp [track_to_csv_row, h]
  refine ⟨hone, ?_, map_rows_append⟩
  intro pn xs ys bad hbad
  have hnone : track_to_csv_row bad pn = none := (hone bad pn).mpr hbad
  rw [map_rows_append, map_rows_append]
  have : map_rows (bad :: ys) pn = map_rows ys pn := by
    simp [map_rows, hnone]
  rw [this]

/-- C5 counterexample: a playlist with zero mapped rows does not overwrite
an existing CSV of the same name — after an export run over the playlist
`"Old"` with no rows, the stale file `playlists/Old.csv` still holds its old
content, not the header of this run. -/
theorem export_zero_rows_stale :
    (export_main [] [("Old", [])] fsStale).files "playlists/Old.csv" =
      some [[CsvValue.str "stale"]] ∧
    some [[CsvValue.str "stale"]] ≠
      some (fieldnames :: ([] : List CsvRow).map rowValues) := by
  exact ⟨rfl, by decide⟩

theorem export_to_csv_dirs (rows : List CsvRow) (fn : String) (fs : FS) :
    (export_to_csv rows fn fs).dirs = fs.dirs := by
  unfold export_to_csv
  split <;> rfl

/-- C5 amended: the exporter creates the output directory if absent; a
playlist with at least one mapped row is written as exactly the header plus
this run's rows, overwriting any existing CSV of that name and touching no
other file; a playlist with zero mapped rows writes nothing, leaving any
existing file of its name unchanged. -/
theorem export_overwrite_correct :
    (∀ (saved : List PlaylistItem) (pls : List (String × List PlaylistItem))
        (fs : FS), "playlists" ∈ (export_main saved pls fs).dirs) ∧
    (∀ (rows : List CsvRow) (fn : String) (fs : FS),
        rows ≠ [] →
          (export_to_csv rows fn fs).files fn
            = some (fieldnames :: rows.map rowValues)) ∧
    (∀ (rows : List CsvRow) (fn fn' : String) (fs : FS),
        fn' ≠ fn → (export_to_csv rows fn fs).files fn' = fs.files fn') ∧
    (∀ (fn : String) (fs : FS), export_to_csv [] fn fs = fs) := by
  refine ⟨?_, ?_, ?_, ?_⟩
  · intro saved pls fs
    have hfold : ∀ (ps : List (String × List PlaylistItem)) (g : FS),
        (ps.foldl
          (fun acc pl =>
            export_to_csv (map_rows pl.2 pl.1)
              ("playlists/" ++ sanitize_name pl.1 ++ ".csv") acc) g).dirs
          = g.dirs := by
      intro ps
      induction ps with
      | nil => intro g; rfl
      | cons p rest ih =>
        intro g
        rw [List.foldl_cons, ih, export_to_csv_dirs]
    show "playlists" ∈ _
    unfold export_main
    rw [hfold, export_to_csv_dirs]
    unfold FS.mkdir
    by_cases h : "playlists" ∈ fs.dirs
    · simp [h]
    · simp [h]
  · intro rows fn fs hne
    have hemp : rows.isEmpty = false := by simpa [List.isEmpty_iff] using hne
    simp [export_to_csv, hemp]
  · intro rows fn fn' fs hne
    unfold export_to_csv
    split
    · rfl
    · simp [hne]
  · intro fn fs
    rfl

theorem head?_dropWhile_false (p : Char → Bool) (l : List Char) :
    ∀ c, (l.dropWhile p).head? = some c → p c = false := by
  induction l with
  | nil => intro c hc; simp [List.dropWhile] at hc
  | cons a l ih =>
    intro c hc
    rw [List.dropWhile_cons] at hc
    by_cases h : p a = true
    · rw [if_pos h] at hc
      exact ih c hc
    · rw [if_neg h] at hc
      simp only [List.head?_cons, Option.some.injEq] at hc
      subst hc
      exact Bool.eq_false_iff.mpr h

theorem pyStrip_spec (l : List Char) :
    ∃ pre suf : List Char,
      (∀ c ∈ pre, c.isWhitespace = true) ∧ (∀ c ∈ suf, c.isWhitespace = true) ∧
      l = pre ++ pyStrip l ++ suf ∧
      (∀ c, (pyStrip l).head? = some c → c.isWhitespace = false) ∧
      (∀ c, (pyStrip l).getLast? = some c → c.isWhitespace = false) := by
  have hstrip : pyStrip l
      = ((l.dropWhile Char.isWhitespace).reverse.dropWhile Char.isWhitespace).reverse :=
    rfl
  have h1 : l.takeWhile Char.isWhitespace ++ l.dropWhile Char.isWhitespace = l :=
    List.takeWhile_append_dropWhile Char.isWhitespace l
  have h2 : (l.dropWhile Char.isWhitespace).reverse.takeWhile Char.isWhitespace
        ++ (l.dropWhile Char.isWhitespace).reverse.dropWhile Char.isWhitespace
      = (l.dropWhile Char.isWhitespace).reverse :=
    List.takeWhile_append_dropWhile Char.isWhitespace _
  have h3 : l.dropWhile Char.isWhitespace
      = pyStrip l
        ++ ((l.dropWhile Char.isWhitespace).reverse.takeWhile Char.isWhitespace).reverse := by
    have := congrArg List.reverse h2
    rw [List.reverse_append, List.reverse_reverse] at this
    rw [hstrip]
    exact this.symm
  refine ⟨l.takeWhile Char.isWhitespace,
    ((l.dropWhile Char.isWhitespace).reverse.takeWhile Char.isWhitespace).reverse,
    ?_, ?_, ?_, ?_, ?_⟩
  · intro c hc
    exact List.mem_takeWhile_imp hc
  · intro c hc
    rw [List.mem_reverse] at hc
    exact List.mem_takeWhile_imp hc
  · conv_lhs => rw [← h1, ← h3.symm]
    rw [h3, List.append_assoc]
  · intro c hc
    have hm : (l.dropWhile Char.isWhitespace).head? = some c := by
      rw [h3]
      cases hs : pyStrip l with
      | nil => rw [hs] at hc; simp at hc
      | cons x xs =>
        rw [hs] at hc
        simp only [List.head?_cons, Option.some.injEq] at hc
        subst hc
        simp
    exact head?_dropWhile_false Char.isWhitespace l c hm
  · intro c hc
    rw [hstrip, List.getLast?_reverse] at hc
    exact head?_dropWhile_false Char.isWhitespace _ c hc

/-- C6: the sanitized playlist filename keeps exactly the characters that
are alphanumeric, space, hyphen or underscore, in order, with leading and
trailing whitespace then trimmed (every kept character is from the allowed
set, and the filtered sequence is the result surrounded by a whitespace
prefix and suffix); `"Rock & Roll?!"` sanitizes to `"Rock  Roll"`. -/
theorem sanitize_name_correct :
    (∀ name : String,
        ∃ pre suf : List Char,
          (∀ c ∈ pre, c.isWhitespace = true) ∧
          (∀ c ∈ suf, c.isWhitespace = true) ∧
          name.data.filter (fun c => c.isAlphanum || c == ' ' || c == '-' || c == '_')
            = pre ++ (sanitize_name name).data ++ suf ∧
          (∀ c ∈ (sanitize_name name).data,
            (c.isAlphanum || c == ' ' || c == '-' || c == '_') = true) ∧
          (∀ c, (sanitize_name name).data.head? = some c → c.isWhitespace = false) ∧
          (∀ c, (sanitize_name name).data.getLast? = some c → c.isWhitespace = false)) ∧
    sanitize_name "Rock & Roll?!" = "Rock  Roll" := by
  constructor
  · intro name
    have hdata : (sanitize_name name).data
        = pyStrip (name.data.filter
            fun c => c.isAlphanum || c == ' ' || c == '-' || c == '_') := rfl
    obtain ⟨pre, suf, hpre, hsuf, heq, hhead, hlast⟩ :=
      pyStrip_spec (name.data.filter
        fun c => c.isAlphanum || c == ' ' || c == '-' || c == '_')
    refine ⟨pre, suf, hpre, hsuf, by rw [hdata]; exact heq, ?_,
      by rw [hdata]; exact hhead, by rw [hdata]; exact hlast⟩
    intro c hc
    have hmem : c ∈ name.data.filter
        (fun c => c.isAlphanum || c == ' ' || c == '-' || c == '_') := by
      rw [heq]
      exact List.mem_append.mpr (Or.inl (List.mem_append.mpr (Or.inr (hdata ▸ hc))))
    exact (List.mem_filter.mp hmem).2
  · decide

end STSH
